import Mathlib

/- Shallow embedding of src/app.py: an interactive visualization pipeline that
builds a symbolic model function per country, differentiates it twice,
samples the three expressions over a numeric grid, and marks critical and
inflection points obtained by symbolic root solving guarded by try/except. -/

/- Country coefficient triple (a, b, c); src/app.py lines 54-61 stores them as
Python floats, all of which are exact decimals, modelled as rationals. -/
structure CountryParams where
  a : ℚ
  b : ℚ
  c : ℚ
deriving DecidableEq, Repr

/- The fixed six-entry country list, src/app.py lines 38-45. -/
def countries : List String :=
  [("Spain 🇪🇸"), ("Italy 🇮🇹"), ("United States 🇺🇸"),
   ("Mexico 🇲🇽"), ("Japan 🇯🇵"), ("Brazil 🇧🇷")]

/- The coefficient dictionary, src/app.py lines 54-61.  Python dict indexing
raises KeyError on a missing key; the failure is modelled as `none`. -/
def country_params (country : String) : Option CountryParams :=
  if country = "Spain 🇪🇸" then some ⟨1.2, 0.45, 3⟩
  else if country = "Italy 🇮🇹" then some ⟨1.0, 0.30, 4.5⟩
  else if country = "United States 🇺🇸" then some ⟨1.5, 0.35, 6⟩
  else if country = "Mexico 🇲🇽" then some ⟨1.1, 0.50, 2.5⟩
  else if country = "Japan 🇯🇵" then some ⟨0.9, 0.25, 5⟩
  else if country = "Brazil 🇧🇷" then some ⟨1.3, 0.55, 3⟩
  else none

/- Symbolic closed-form expressions in the single free variable x, covering
exactly the sympy operations the app constructs: rational constants, the
variable, sums, products, quotients (produced by differentiating log),
natural powers, exp, log, sin and cos (produced by differentiating sin). -/
inductive Expr where
  | const (q : ℚ)
  | var
  | add (e₁ e₂ : Expr)
  | mul (e₁ e₂ : Expr)
  | div (e₁ e₂ : Expr)
  | pow (e : Expr) (n : ℕ)
  | exp (e : Expr)
  | log (e : Expr)
  | sin (e : Expr)
  | cos (e : Expr)
deriving DecidableEq, Repr

/- The function builder, src/app.py lines 81-91: dispatch on the selected
model string; a string outside the four branches falls through and the
Python function returns None, modelled as `none`. -/
def build_function (function_type : String) (params : CountryParams) : Option Expr :=
  if function_type = "Exponential (Market Growth)" then
    some (.add (.mul (.const params.a) (.exp (.mul (.const params.b) .var))) (.const params.c))
  else if function_type = "Logarithmic (Diminishing Returns)" then
    some (.add (.mul (.const params.a) (.log (.mul (.const params.b) .var))) (.const params.c))
  else if function_type = "Polynomial (Cost Structure)" then
    some (.add (.add (.mul (.const params.a) (.pow .var 2)) (.mul (.const params.b) .var))
      (.const params.c))
  else if function_type = "Trigonometric (Seasonality)" then
    some (.add (.mul (.const params.a) (.sin (.mul (.const params.b) .var))) (.const params.c))
  else none

/- Symbolic differentiation with respect to x, modelling sp.diff as used on
the expressions above: linearity, product rule, quotient rule, power rule,
chain rule for exp, log, sin and cos. -/
def Expr.diff : Expr → Expr
  | .const _ => .const 0
  | .var => .const 1
  | .add e₁ e₂ => .add e₁.diff e₂.diff
  | .mul e₁ e₂ => .add (.mul e₁.diff e₂) (.mul e₁ e₂.diff)
  | .div e₁ e₂ =>
      .div (.add (.mul e₁.diff e₂) (.mul (.const (-1)) (.mul e₁ e₂.diff))) (.mul e₂ e₂)
  | .pow e n => .mul (.mul (.const (n : ℚ)) (.pow e (n - 1))) e.diff
  | .exp e => .mul (.exp e) e.diff
  | .log e => .div e.diff e
  | .sin e => .mul (.cos e) e.diff
  | .cos e => .mul (.mul (.const (-1)) (.sin e)) e.diff

/- The derivative pair computed by the pipeline, src/app.py lines 108-109:
f_prime = sp.diff(f, x), f_double = sp.diff(f_prime, x). -/
def derivative_pair (f : Expr) : Expr × Expr :=
  (f.diff, f.diff.diff)

/- Exact real-number semantics of an expression at a point. -/
noncomputable def Expr.evalR : Expr → ℝ → ℝ
  | .const q, _ => (q : ℝ)
  | .var, t => t
  | .add e₁ e₂, t => e₁.evalR t + e₂.evalR t
  | .mul e₁ e₂, t => e₁.evalR t * e₂.evalR t
  | .div e₁ e₂, t => e₁.evalR t / e₂.evalR t
  | .pow e n, t => e.evalR t ^ n
  | .exp e, t => Real.exp (e.evalR t)
  | .log e, t => Real.log (e.evalR t)
  | .sin e, t => Real.sin (e.evalR t)
  | .cos e, t => Real.cos (e.evalR t)

open Classical in
/- Numeric evaluation as performed by sp.lambdify(..., "numpy"),
src/app.py lines 111-117.  numpy evaluation never raises on a domain
violation; it produces a non-finite value (NaN or ±∞) that propagates
through every subsequent arithmetic operation.  The model collapses all
non-finite outcomes to `none`: log at an argument ≤ 0 and division by zero
yield `none`, and `none` propagates through add, mul, div and pow. -/
noncomputable def Expr.evalF : Expr → ℝ → Option ℝ
  | .const q, _ => some (q : ℝ)
  | .var, t => some t
  | .add e₁ e₂, t =>
      match e₁.evalF t, e₂.evalF t with
      | some v, some w => some (v + w)
      | _, _ => none
  | .mul e₁ e₂, t =>
      match e₁.evalF t, e₂.evalF t with
      | some v, some w => some (v * w)
      | _, _ => none
  | .div e₁ e₂, t =>
      match e₁.evalF t, e₂.evalF t with
      | some v, some w => if w = 0 then none else some (v / w)
      | _, _ => none
  | .pow e n, t => (e.evalF t).map (fun v => v ^ n)
  | .exp e, t => (e.evalF t).map Real.exp
  | .log e, t =>
      match e.evalF t with
      | some v => if v ≤ 0 then none else some (Real.log v)
      | none => none
  | .sin e, t => (e.evalF t).map Real.sin
  | .cos e, t => (e.evalF t).map Real.cos

/- np.linspace(lo, hi, n) with endpoint=True, src/app.py line 97: n evenly
spaced samples lo + i·(hi − lo)/(n − 1).  Slider values and the spacing are
exact decimals, modelled in ℚ. -/
def linspace (lo hi : ℚ) (n : ℕ) : List ℚ :=
  (List.range n).map fun i : ℕ => lo + (i : ℚ) * (hi - lo) / ((n : ℚ) - 1)

/- The shared sample grid, src/app.py line 97. -/
def x_vals (xmin xmax : ℚ) : List ℚ :=
  linspace xmin xmax 1000

/- One plotted numeric array: the lambdified expression applied to every
sample point, src/app.py lines 115-117. -/
noncomputable def sample (e : Expr) (xs : List ℚ) : List (Option ℝ) :=
  xs.map fun q : ℚ => e.evalF (q : ℝ)

/- One root returned by sp.solve, as consumed by the marking loops in
src/app.py lines 120-137.  Accessing the sympy attributes can itself fail:
the truthiness test of cp.is_real is modelled as `Except.ok b` (sympy may
answer True, False or None; None is falsy, folded into `ok false`), with
`Except.error` for an exception raised during classification; float(cp) is
modelled by `val`, with `Except.error` for a failed conversion. -/
structure Root where
  is_real : Except Unit Bool
  val : Except Unit ℚ
deriving Repr

/- A root whose classification and float conversion both succeed. -/
def root_ok (r : Root) : Bool :=
  match r.is_real, r.val with
  | .ok _, .ok _ => true
  | _, _ => false

/- A root on which the loop body raises: either the classification raises,
or the root is classified real and float conversion raises (the conversion
only runs when cp.is_real is truthy, by Python short-circuit evaluation). -/
def root_raises (r : Root) : Bool :=
  match r.is_real, r.val with
  | .error _, _ => true
  | .ok true, .error _ => true
  | _, _ => false

/- The body of one marking loop, src/app.py lines 122-125 and 132-135:
for each solved root in order, if it is classified real and its float value
lies in [xmin, xmax], a vertical marker at that value is drawn.  Drawing is
a side effect already performed when a later root raises, so an exception
leaves the markers accumulated so far in place; the surrounding
try/except swallows the exception (lines 126-127, 136-137), returning
whatever was drawn. -/
def mark_roots (xmin xmax : ℚ) : List Root → List ℚ → List ℚ
  | [], acc => acc
  | r :: rs, acc =>
    match r.is_real with
    | .error _ => acc
    | .ok false => mark_roots xmin xmax rs acc
    | .ok true =>
      match r.val with
      | .error _ => acc
      | .ok v =>
        if xmin ≤ v ∧ v ≤ xmax then mark_roots xmin xmax rs (acc ++ [v])
        else mark_roots xmin xmax rs acc

/- One whole guarded root-marking step, src/app.py lines 120-127 (and
identically 130-137): sp.solve may itself raise (`Except.error`), in which
case the except handler leaves nothing drawn; otherwise the loop runs on
the returned roots. -/
def solve_and_mark (res : Except Unit (List Root)) (xmin xmax : ℚ) : List ℚ :=
  match res with
  | .error _ => []
  | .ok roots => mark_roots xmin xmax roots []

/- The roots the marking condition accepts: classified real, with a float
value inside [xmin, xmax], both endpoints included. -/
def accepted_roots (xmin xmax : ℚ) (roots : List Root) : List ℚ :=
  roots.filterMap fun r =>
    match r.is_real, r.val with
    | .ok true, .ok v => if xmin ≤ v ∧ v ≤ xmax then some v else none
    | _, _ => none

/- Accepted roots of a solver outcome; a failed solve accepts nothing. -/
def accepted_of (res : Except Unit (List Root)) (xmin xmax : ℚ) : List ℚ :=
  match res with
  | .error _ => []
  | .ok roots => accepted_roots xmin xmax roots

/- The plotting passes executed at src/app.py lines 139-144: the primary
country is always drawn with the solid linestyle; in comparison mode a
second pass with the dashed linestyle runs only under the guard
country_2 != country_1.  country_2 is None unless comparison mode is on
(lines 49-51). -/
def plot_passes (comparison_mode : Bool) (country_1 : String) (country_2 : Option String) :
    List (String × String) :=
  [(country_1, "-")] ++
    (match comparison_mode, country_2 with
     | true, some c2 => if c2 ≠ country_1 then [(c2, "--")] else []
     | _, _ => [])

/- Spec-side templates, transcribed from the catalog table of the spec
(section 4.1): Exponential a·e^(b·x) + c, Logarithmic a·ln(b·x) + c,
Polynomial a·x² + b·x + c, Trigonometric a·sin(b·x) + c. -/
def template_exponential (a b c : ℚ) : Expr :=
  .add (.mul (.const a) (.exp (.mul (.const b) .var))) (.const c)

def template_logarithmic (a b c : ℚ) : Expr :=
  .add (.mul (.const a) (.log (.mul (.const b) .var))) (.const c)

def template_polynomial (a b c : ℚ) : Expr :=
  .add (.add (.mul (.const a) (.pow .var 2)) (.mul (.const b) .var)) (.const c)

def template_trigonometric (a b c : ℚ) : Expr :=
  .add (.mul (.const a) (.sin (.mul (.const b) .var))) (.const c)

/- Helper lemmas: the instantiated builder output per branch. -/
lemma build_function_exponential (a b c : ℚ) :
    build_function ("Exponential (Market Growth)") ⟨a, b, c⟩ =
      some (template_exponential a b c) :=
  rfl

lemma build_function_logarithmic (a b c : ℚ) :
    build_function ("Logarithmic (Diminishing Returns)") ⟨a, b, c⟩ =
      some (template_logarithmic a b c) :=
  rfl

lemma build_function_polynomial (a b c : ℚ) :
    build_function ("Polynomial (Cost Structure)") ⟨a, b, c⟩ =
      some (template_polynomial a b c) :=
  rfl

lemma build_function_trigonometric (a b c : ℚ) :
    build_function ("Trigonometric (Seasonality)") ⟨a, b, c⟩ =
      some (template_trigonometric a b c) :=
  rfl

/- Helper lemmas: closed forms of the symbolic first and second derivatives
of each family, read off under real semantics. -/
lemma evalR_diff_polynomial (a b c : ℚ) (t : ℝ) :
    (Expr.diff (template_polynomial a b c)).evalR t = 2 * a * t + b := by
  simp [template_polynomial, Expr.diff, Expr.evalR]
  ring

lemma evalR_diff2_polynomial (a b c : ℚ) (t : ℝ) :
    (Expr.diff (Expr.diff (template_polynomial a b c))).evalR t = 2 * a := by
  simp [template_polynomial, Expr.diff, Expr.evalR]
  ring

lemma evalR_diff_exponential (a b c : ℚ) (t : ℝ) :
    (Expr.diff (template_exponential a b c)).evalR t = a * b * Real.exp (b * t) := by
  simp [template_exponential, Expr.diff, Expr.evalR]
  ring

lemma evalR_diff2_exponential (a b c : ℚ) (t : ℝ) :
    (Expr.diff (Expr.diff (template_exponential a b c))).evalR t =
      a * b ^ 2 * Real.exp (b * t) := by
  simp [template_exponential, Expr.diff, Expr.evalR]
  ring

lemma evalR_diff_trigonometric (a b c : ℚ) (t : ℝ) :
    (Expr.diff (template_trigonometric a b c)).evalR t = a * b * Real.cos (b * t) := by
  simp [template_trigonometric, Expr.diff, Expr.evalR]
  ring

lemma evalR_diff2_trigonometric (a b c : ℚ) (t : ℝ) :
    (Expr.diff (Expr.diff (template_trigonometric a b c))).evalR t =
      -(a * b ^ 2 * Real.sin (b * t)) := by
  simp [template_trigonometric, Expr.diff, Expr.evalR]
  ring

lemma evalR_diff_logarithmic (a b c : ℚ) (t : ℝ) (h : (b : ℝ) * t ≠ 0) :
    (Expr.diff (template_logarithmic a b c)).evalR t = a / t := by
  have hb : (b : ℝ) ≠ 0 := fun hb => h (by rw [hb, zero_mul])
  have ht : t ≠ 0 := fun ht => h (by rw [ht, mul_zero])
  simp [template_logarithmic, Expr.diff, Expr.evalR]
  field_simp
  ring

lemma evalR_diff2_logarithmic (a b c : ℚ) (t : ℝ) (h : (b : ℝ) * t ≠ 0) :
    (Expr.diff (Expr.diff (template_logarithmic a b c))).evalR t = -(a / t ^ 2) := by
  have hb : (b : ℝ) ≠ 0 := fun hb => h (by rw [hb, zero_mul])
  have ht : t ≠ 0 := fun ht => h (by rw [ht, mul_zero])
  simp [template_logarithmic, Expr.diff, Expr.evalR]
  field_simp
  ring

lemma sample_length (e : Expr) (xs : List ℚ) : (sample e xs).length = xs.length := by
  unfold sample
  exact List.length_map xs _

/-- C1: for every country profile (a, b, c) and each of the four enumerated
model families, instantiating the family via build_function yields exactly
the template expression of the catalog table, whose real semantics is
a·e^(b·x) + c, a·ln(b·x) + c, a·x² + b·x + c and a·sin(b·x) + c
respectively. -/
theorem claim_C1 (a b c : ℚ) :
    build_function ("Exponential (Market Growth)") ⟨a, b, c⟩ =
      some (template_exponential a b c) ∧
    build_function ("Logarithmic (Diminishing Returns)") ⟨a, b, c⟩ =
      some (template_logarithmic a b c) ∧
    build_function ("Polynomial (Cost Structure)") ⟨a, b, c⟩ =
      some (template_polynomial a b c) ∧
    build_function ("Trigonometric (Seasonality)") ⟨a, b, c⟩ =
      some (template_trigonometric a b c) ∧
    (∀ t : ℝ, (template_exponential a b c).evalR t = a * Real.exp (b * t) + c) ∧
    (∀ t : ℝ, (template_logarithmic a b c).evalR t = a * Real.log (b * t) + c) ∧
    (∀ t : ℝ, (template_polynomial a b c).evalR t = a * t ^ 2 + b * t + c) ∧
    (∀ t : ℝ, (template_trigonometric a b c).evalR t = a * Real.sin (b * t) + c) := by
  refine ⟨rfl, rfl, rfl, rfl, ?_, ?_, ?_, ?_⟩ <;> intro t <;>
    simp [template_exponential, template_logarithmic, template_polynomial,
      template_trigonometric, Expr.evalR]

/-- C2: the derivative pair computed by the pipeline satisfies
first = diff(original) and second = diff(first), and for every country
profile the pair of each instantiated family matches the closed-form
derivatives: Polynomial 2ax + b and 2a; Exponential ab·e^(bx) and
ab²·e^(bx); Trigonometric ab·cos(bx) and −ab²·sin(bx); Logarithmic a/x and
−a/x² away from the domain boundary b·x = 0. -/
theorem claim_C2 (a b c : ℚ) :
    (∀ f : Expr, derivative_pair f = (Expr.diff f, Expr.diff (derivative_pair f).1)) ∧
    (∀ f, build_function ("Polynomial (Cost Structure)") ⟨a, b, c⟩ = some f →
      ∀ t : ℝ, (derivative_pair f).1.evalR t = 2 * a * t + b ∧
        (derivative_pair f).2.evalR t = 2 * a) ∧
    (∀ f, build_function ("Exponential (Market Growth)") ⟨a, b, c⟩ = some f →
      ∀ t : ℝ, (derivative_pair f).1.evalR t = a * b * Real.exp (b * t) ∧
        (derivative_pair f).2.evalR t = a * b ^ 2 * Real.exp (b * t)) ∧
    (∀ f, build_function ("Trigonometric (Seasonality)") ⟨a, b, c⟩ = some f →
      ∀ t : ℝ, (derivative_pair f).1.evalR t = a * b * Real.cos (b * t) ∧
        (derivative_pair f).2.evalR t = -(a * b ^ 2 * Real.sin (b * t))) ∧
    (∀ f, build_function ("Logarithmic (Diminishing Returns)") ⟨a, b, c⟩ = some f →
      ∀ t : ℝ, (b : ℝ) * t ≠ 0 → (derivative_pair f).1.evalR t = a / t ∧
        (derivative_pair f).2.evalR t = -(a / t ^ 2)) := by
  refine ⟨fun f => rfl, ?_, ?_, ?_, ?_⟩
  · intro f hf t
    obtain rfl := Option.some.inj hf
    exact ⟨evalR_diff_polynomial a b c t, evalR_diff2_polynomial a b c t⟩
  · intro f hf t
    obtain rfl := Option.some.inj hf
    exact ⟨evalR_diff_exponential a b c t, evalR_diff2_exponential a b c t⟩
  · intro f hf t
    obtain rfl := Option.some.inj hf
    exact ⟨evalR_diff_trigonometric a b c t, evalR_diff2_trigonometric a b c t⟩
  · intro f hf t ht
    obtain rfl := Option.some.inj hf
    exact ⟨evalR_diff_logarithmic a b c t ht, evalR_diff2_logarithmic a b c t ht⟩

/-- Witness for C2 at the profile (1, 2, 3): the polynomial branch at t = 0
and the logarithmic branch at t = 1, with every hypothesis discharged
concretely. -/
theorem claim_C2_witness :
    (build_function ("Polynomial (Cost Structure)") ⟨1, 2, 3⟩ =
      some (template_polynomial 1 2 3) ∧
     (derivative_pair (template_polynomial 1 2 3)).1.evalR 0 = 2 * (1 : ℚ) * 0 + 2 ∧
     (derivative_pair (template_polynomial 1 2 3)).2.evalR 0 = 2 * (1 : ℚ)) ∧
    (build_function ("Logarithmic (Diminishing Returns)") ⟨1, 2, 3⟩ =
      some (template_logarithmic 1 2 3) ∧
     ((2 : ℚ) : ℝ) * 1 ≠ 0 ∧
     (derivative_pair (template_logarithmic 1 2 3)).1.evalR 1 = (1 : ℚ) / 1 ∧
     (derivative_pair (template_logarithmic 1 2 3)).2.evalR 1 = -((1 : ℚ) / 1 ^ 2)) := by
  have h := claim_C2 1 2 3
  have hp := h.2.1 (template_polynomial 1 2 3) rfl 0
  have hl := h.2.2.2.2 (template_logarithmic 1 2 3) rfl 1 (by norm_num)
  exact ⟨⟨rfl, hp.1, hp.2⟩, ⟨rfl, by norm_num, hl.1, hl.2⟩⟩

/- Helper: the accumulator of the marking loop is a passed-through prefix. -/
lemma mark_roots_acc (xmin xmax : ℚ) (roots : List Root) (acc : List ℚ) :
    mark_roots xmin xmax roots acc = acc ++ mark_roots xmin xmax roots [] := by
  induction roots generalizing acc with
  | nil => simp [mark_roots]
  | cons r rs ih =>
    cases hr : r.is_real with
    | error e => simp [mark_roots, hr]
    | ok b =>
      cases b with
      | false =>
        simp only [mark_roots, hr]
        exact ih acc
      | true =>
        cases hv : r.val with
        | error e => simp [mark_roots, hr, hv]
        | ok v =>
          by_cases hin : xmin ≤ v ∧ v ≤ xmax
          · simp only [mark_roots, hr, hv, if_pos hin, List.nil_append]
            rw [ih (acc ++ [v]), ih [v], List.append_assoc]
          · simp only [mark_roots, hr, hv, if_neg hin]
            exact ih acc

/- Helper: whatever the loop marks is an initial segment of the roots the
marking condition accepts. -/
lemma mark_roots_le_accepted (xmin xmax : ℚ) (roots : List Root) :
    ∃ rest, accepted_roots xmin xmax roots = mark_roots xmin xmax roots [] ++ rest := by
  induction roots with
  | nil => exact ⟨[], rfl⟩
  | cons r rs ih =>
    obtain ⟨rest, hrest⟩ := ih
    cases hr : r.is_real with
    | error e =>
      refine ⟨accepted_roots xmin xmax rs, ?_⟩
      simp [accepted_roots, mark_roots, hr, List.filterMap_cons]
    | ok b =>
      cases b with
      | false =>
        refine ⟨rest, ?_⟩
        simp only [accepted_roots, List.filterMap_cons, hr, mark_roots]
        exact hrest
      | true =>
        cases hv : r.val with
        | error e =>
          refine ⟨accepted_roots xmin xmax rs, ?_⟩
          simp [accepted_roots, mark_roots, hr, hv, List.filterMap_cons]
        | ok v =>
          by_cases hin : xmin ≤ v ∧ v ≤ xmax
          · refine ⟨rest, ?_⟩
            simp only [accepted_roots, List.filterMap_cons, hr, hv, if_pos hin, mark_roots,
              List.nil_append]
            rw [mark_roots_acc xmin xmax rs [v]]
            simpa [accepted_roots] using congrArg (List.cons v) hrest
          · refine ⟨rest, ?_⟩
            simp only [accepted_roots, List.filterMap_cons, hr, hv, if_neg hin, mark_roots]
            exact hrest

/- Helper: along a block of roots that all classify and convert
successfully, the loop marks exactly the accepted ones and keeps going. -/
lemma mark_roots_append_ok (xmin xmax : ℚ) (xs ys : List Root) (acc : List ℚ)
    (h : ∀ s ∈ xs, root_ok s = true) :
    mark_roots xmin xmax (xs ++ ys) acc =
      mark_roots xmin xmax ys (acc ++ accepted_roots xmin xmax xs) := by
  induction xs generalizing acc with
  | nil => simp [accepted_roots]
  | cons r rs ih =>
    have hr := h r (List.mem_cons_self r rs)
    have hrs : ∀ s ∈ rs, root_ok s = true := fun s hs => h s (List.mem_cons_of_mem _ hs)
    cases hre : r.is_real with
    | error e => simp [root_ok, hre] at hr
    | ok b =>
      cases hv : r.val with
      | error e => simp [root_ok, hre, hv] at hr
      | ok v =>
        cases b with
        | false =>
          have h1 := ih acc hrs
          show mark_roots xmin xmax (r :: (rs ++ ys)) acc =
            mark_roots xmin xmax ys (acc ++ accepted_roots xmin xmax (r :: rs))
          simp only [mark_roots, hre]
          rw [show accepted_roots xmin xmax (r :: rs) = accepted_roots xmin xmax rs from by
            simp [accepted_roots, List.filterMap_cons, hre]]
          exact h1
        | true =>
          by_cases hin : xmin ≤ v ∧ v ≤ xmax
          · have h1 := ih (acc ++ [v]) hrs
            have h2 : (acc ++ [v]) ++ accepted_roots xmin xmax rs =
                acc ++ accepted_roots xmin xmax (r :: rs) := by
              simp [accepted_roots, List.filterMap_cons, hre, hv, if_pos hin]
            show mark_roots xmin xmax (r :: (rs ++ ys)) acc =
              mark_roots xmin xmax ys (acc ++ accepted_roots xmin xmax (r :: rs))
            simp only [mark_roots, hre, hv, if_pos hin]
            rw [← h2]
            exact h1
          · have h1 := ih acc hrs
            show mark_roots xmin xmax (r :: (rs ++ ys)) acc =
              mark_roots xmin xmax ys (acc ++ accepted_roots xmin xmax (r :: rs))
            simp only [mark_roots, hre, hv, if_neg hin]
            rw [show accepted_roots xmin xmax (r :: rs) = accepted_roots xmin xmax rs from by
              simp [accepted_roots, List.filterMap_cons, hre, hv, if_neg hin]]
            exact h1

/- Helper: the loop returns its accumulator unchanged at a raising root. -/
lemma mark_roots_raise (xmin xmax : ℚ) (r : Root) (ys : List Root) (acc : List ℚ)
    (h : root_raises r = true) :
    mark_roots xmin xmax (r :: ys) acc = acc := by
  cases hre : r.is_real with
  | error e => simp [mark_roots, hre]
  | ok b =>
    cases b with
    | false => simp [root_raises, hre] at h
    | true =>
      cases hv : r.val with
      | error e => simp [mark_roots, hre, hv]
      | ok v => simp [root_raises, hre, hv] at h

/-- C3 as stated is false: here float conversion of the second solved root
raises, yet the step contributes the marker already drawn for the first
root, not an empty set. -/
theorem claim_C3_counterexample :
    root_raises ⟨Except.ok true, Except.error ()⟩ = true ∧
    solve_and_mark
      (Except.ok [⟨Except.ok true, Except.ok 1⟩, ⟨Except.ok true, Except.error ()⟩])
      0 2 = [1] ∧
    solve_and_mark
      (Except.ok [⟨Except.ok true, Except.ok 1⟩, ⟨Except.ok true, Except.error ()⟩])
      0 2 ≠ [] := by
  refine ⟨rfl, ?_, ?_⟩ <;> decide

/-- C3 amended: the root-finding step never propagates a failure — a failed
symbolic solve contributes the empty set, and on any classification or
conversion failure the step still completes, contributing an initial
segment (not necessarily empty) of the accepted roots. -/
theorem claim_C3 (res : Except Unit (List Root)) (xmin xmax : ℚ) :
    (∃ rest, accepted_of res xmin xmax = solve_and_mark res xmin xmax ++ rest) ∧
    solve_and_mark (Except.error ()) xmin xmax = [] := by
  refine ⟨?_, rfl⟩
  cases res with
  | error e => exact ⟨[], rfl⟩
  | ok roots => exact mark_roots_le_accepted xmin xmax roots

/-- C4: when every solved root classifies and converts successfully, the
marked set is exactly the accepted set — the real-valued roots whose value
lies within [xmin, xmax], both endpoints included — and membership in the
marked set is equivalent to being such a root. -/
theorem claim_C4 (xmin xmax : ℚ) (roots : List Root)
    (h : ∀ s ∈ roots, root_ok s = true) :
    solve_and_mark (Except.ok roots) xmin xmax = accepted_roots xmin xmax roots ∧
    (∀ v : ℚ, v ∈ solve_and_mark (Except.ok roots) xmin xmax ↔
      ∃ r ∈ roots, r.is_real = Except.ok true ∧ r.val = Except.ok v ∧
        xmin ≤ v ∧ v ≤ xmax) := by
  have key : solve_and_mark (Except.ok roots) xmin xmax = accepted_roots xmin xmax roots := by
    have h1 := mark_roots_append_ok xmin xmax roots [] [] h
    simpa [solve_and_mark, mark_roots] using h1
  refine ⟨key, fun v => ?_⟩
  rw [key]
  simp only [accepted_roots, List.mem_filterMap]
  constructor
  · rintro ⟨r, hr, hv⟩
    cases hre : r.is_real with
    | error e => simp [hre] at hv
    | ok b =>
      cases b with
      | false => simp [hre] at hv
      | true =>
        cases hval : r.val with
        | error e => simp [hre, hval] at hv
        | ok w =>
          simp only [hre, hval] at hv
          by_cases hin : xmin ≤ w ∧ w ≤ xmax
          · rw [if_pos hin] at hv
            obtain rfl := Option.some.inj hv
            exact ⟨r, hr, hre, hval, hin.1, hin.2⟩
          · rw [if_neg hin] at hv
            exact absurd hv (Option.noConfusion)
  · rintro ⟨r, hr, hre, hval, hlo, hhi⟩
    refine ⟨r, hr, ?_⟩
    simp [hre, hval, hlo, hhi]

/-- Witness for C4 with the interval [0, 1]: roots at both endpoints are
kept, a root at 2 falls outside, a non-real root is discarded. -/
theorem claim_C4_witness :
    (∀ s ∈ [(⟨Except.ok true, Except.ok 0⟩ : Root), ⟨Except.ok true, Except.ok 2⟩,
        ⟨Except.ok true, Except.ok 3⟩, ⟨Except.ok false, Except.ok 1⟩],
      root_ok s = true) ∧
    solve_and_mark
      (Except.ok [⟨Except.ok true, Except.ok 0⟩, ⟨Except.ok true, Except.ok 2⟩,
        ⟨Except.ok true, Except.ok 3⟩, ⟨Except.ok false, Except.ok 1⟩]) 0 2 =
      accepted_roots 0 2
        [⟨Except.ok true, Except.ok 0⟩, ⟨Except.ok true, Except.ok 2⟩,
         ⟨Except.ok true, Except.ok 3⟩, ⟨Except.ok false, Except.ok 1⟩] ∧
    accepted_roots 0 2
        [⟨Except.ok true, Except.ok 0⟩, ⟨Except.ok true, Except.ok 2⟩,
         ⟨Except.ok true, Except.ok 3⟩, ⟨Except.ok false, Except.ok 1⟩] = [0, 2] :=
  ⟨by decide,
   (claim_C4 0 2 [⟨Except.ok true, Except.ok 0⟩, ⟨Except.ok true, Except.ok 2⟩,
      ⟨Except.ok true, Except.ok 3⟩, ⟨Except.ok false, Except.ok 1⟩] (by decide)).1,
   by decide⟩

/-- C10: the except handler wraps the whole loop, so if the n-th solved
root raises during classification or conversion, the markers drawn for the
preceding roots stay: the step returns exactly the accepted roots of the
prefix before the raising root, an initial segment — not necessarily empty —
of all accepted roots. -/
theorem claim_C10 (xmin xmax : ℚ) (xs : List Root) (r : Root) (ys : List Root)
    (hok : ∀ s ∈ xs, root_ok s = true) (hr : root_raises r = true) :
    solve_and_mark (Except.ok (xs ++ r :: ys)) xmin xmax = accepted_roots xmin xmax xs ∧
    (∃ rest, accepted_roots xmin xmax (xs ++ r :: ys) =
      accepted_roots xmin xmax xs ++ rest) := by
  constructor
  · show mark_roots xmin xmax (xs ++ r :: ys) [] = accepted_roots xmin xmax xs
    rw [mark_roots_append_ok xmin xmax xs (r :: ys) [] hok,
      mark_roots_raise xmin xmax r ys _ hr, List.nil_append]
  · exact ⟨accepted_roots xmin xmax (r :: ys), by
      simp [accepted_roots, List.filterMap_append]⟩

/-- Witness for C10: one successfully marked root at 1/2, then a root whose
float conversion raises; the step returns [1/2], a nonempty proper prefix
of the accepted roots. -/
theorem claim_C10_witness :
    (∀ s ∈ [(⟨Except.ok true, Except.ok 1⟩ : Root)], root_ok s = true) ∧
    root_raises ⟨Except.ok true, Except.error ()⟩ = true ∧
    solve_and_mark
      (Except.ok ([⟨Except.ok true, Except.ok 1⟩] ++
        ⟨Except.ok true, Except.error ()⟩ :: [⟨Except.ok true, Except.ok 2⟩]))
      0 2 = accepted_roots 0 2 [⟨Except.ok true, Except.ok 1⟩] ∧
    accepted_roots 0 2 [(⟨Except.ok true, Except.ok 1⟩ : Root)] = [1] :=
  ⟨by decide, by decide,
   (claim_C10 0 2 [⟨Except.ok true, Except.ok 1⟩] ⟨Except.ok true, Except.error ()⟩
      [⟨Except.ok true, Except.ok 2⟩] (by decide) (by decide)).1,
   by decide⟩

/-- C5: for the Polynomial family with a ≠ 0, whose symbolic first
derivative is 2ax + b, the real solutions of that derivative inside any
interval [xmin, xmax] containing −b/(2a) form exactly the singleton
set containing −b/(2a). -/
theorem claim_C5 (a b c : ℚ) (f : Expr)
    (hf : build_function ("Polynomial (Cost Structure)") ⟨a, b, c⟩ = some f)
    (ha : a ≠ 0) (xmin xmax : ℝ)
    (h₁ : xmin ≤ -(b : ℝ) / (2 * a)) (h₂ : -(b : ℝ) / (2 * a) ≤ xmax) :
    {t : ℝ | (derivative_pair f).1.evalR t = 0 ∧ xmin ≤ t ∧ t ≤ xmax} =
      {-(b : ℝ) / (2 * a)} := by
  rw [build_function_polynomial a b c] at hf
  obtain rfl := Option.some.inj hf
  have ha2 : (a : ℝ) ≠ 0 := by exact_mod_cast ha
  ext t
  simp only [Set.mem_setOf_eq, Set.mem_singleton_iff]
  rw [show (derivative_pair (template_polynomial a b c)).1.evalR t = 2 * a * t + b from
    evalR_diff_polynomial a b c t]
  constructor
  · rintro ⟨h0, -, -⟩
    field_simp
    linear_combination h0
  · rintro rfl
    refine ⟨?_, h₁, h₂⟩
    field_simp
    ring

/-- Witness for C5 at the Spain profile (1.2, 0.45, 3): the vertex
−b/(2a) = −0.1875 lies in [−1, 0] and is the unique critical point there. -/
theorem claim_C5_witness :
    build_function ("Polynomial (Cost Structure)") ⟨1.2, 0.45, 3⟩ =
      some (template_polynomial 1.2 0.45 3) ∧
    (1.2 : ℚ) ≠ 0 ∧
    ((-1 : ℝ) ≤ -((0.45 : ℚ) : ℝ) / (2 * ((1.2 : ℚ) : ℝ))) ∧
    (-((0.45 : ℚ) : ℝ) / (2 * ((1.2 : ℚ) : ℝ)) ≤ 0) ∧
    {t : ℝ | (derivative_pair (template_polynomial 1.2 0.45 3)).1.evalR t = 0 ∧
      (-1 : ℝ) ≤ t ∧ t ≤ 0} = {-((0.45 : ℚ) : ℝ) / (2 * ((1.2 : ℚ) : ℝ))} :=
  ⟨rfl, by norm_num, by push_cast; norm_num, by push_cast; norm_num,
   claim_C5 1.2 0.45 3 _ rfl (by norm_num) (-1) 0 (by push_cast; norm_num)
     (by push_cast; norm_num)⟩

/-- C6: for the Logarithmic family with b > 0, numeric evaluation at a
sample point with b·x ≤ 0 yields a non-finite value (modelled `none`)
instead of raising, and at b·x > 0 yields the finite value
a·ln(b·x) + c. -/
theorem claim_C6 (a b c : ℚ) (f : Expr)
    (hf : build_function ("Logarithmic (Diminishing Returns)") ⟨a, b, c⟩ = some f)
    (hb : 0 < (b : ℝ)) (t : ℝ) :
    ((b : ℝ) * t ≤ 0 → f.evalF t = none) ∧
    (0 < (b : ℝ) * t →
      f.evalF t = some ((a : ℝ) * Real.log ((b : ℝ) * t) + (c : ℝ))) := by
  obtain rfl := Option.some.inj hf
  constructor
  · intro h
    simp [template_logarithmic, Expr.evalF, h]
  · intro h
    simp [template_logarithmic, Expr.evalF, not_le.mpr h]

/-- Witness for C6 at profile (2, 3, 5): evaluation at −1 is non-finite,
evaluation at 1 is the finite value 2·ln 3 + 5. -/
theorem claim_C6_witness :
    build_function ("Logarithmic (Diminishing Returns)") ⟨2, 3, 5⟩ =
      some (template_logarithmic 2 3 5) ∧
    (0 : ℝ) < ((3 : ℚ) : ℝ) ∧
    ((3 : ℚ) : ℝ) * (-1) ≤ 0 ∧ (template_logarithmic 2 3 5).evalF (-1) = none ∧
    (0 : ℝ) < ((3 : ℚ) : ℝ) * 1 ∧
    (template_logarithmic 2 3 5).evalF 1 =
      some (((2 : ℚ) : ℝ) * Real.log (((3 : ℚ) : ℝ) * 1) + ((5 : ℚ) : ℝ)) :=
  ⟨rfl, by norm_num, by norm_num,
   (claim_C6 2 3 5 _ rfl (by norm_num) (-1)).1 (by norm_num),
   by norm_num,
   (claim_C6 2 3 5 _ rfl (by norm_num) 1).2 (by norm_num)⟩

/-- C7: for every display range 0.1 ≤ xmin < xmax ≤ 10 and every catalog
country, the pipeline produces three numeric arrays (f, f′, f″) each of
exactly 1000 samples taken at the evenly spaced grid
xmin + i·(xmax − xmin)/999, whose first point is xmin and whose last
point is xmax. -/
theorem claim_C7 (xmin xmax : ℚ) (h₁ : 1/10 ≤ xmin) (h₂ : xmin < xmax) (h₃ : xmax ≤ 10)
    (name : String) (p : CountryParams) (hp : country_params name = some p)
    (s : String) (f : Expr) (hf : build_function s p = some f) :
    (sample f (x_vals xmin xmax)).length = 1000 ∧
    (sample (derivative_pair f).1 (x_vals xmin xmax)).length = 1000 ∧
    (sample (derivative_pair f).2 (x_vals xmin xmax)).length = 1000 ∧
    (∀ i : ℕ, i < 1000 →
      (x_vals xmin xmax)[i]? = some (xmin + i * (xmax - xmin) / 999)) ∧
    (x_vals xmin xmax)[0]? = some xmin ∧
    (x_vals xmin xmax)[999]? = some xmax ∧
    (x_vals xmin xmax).getLast? = some xmax := by
  have hlen : (x_vals xmin xmax).length = 1000 := by
    rw [x_vals, linspace, List.length_map, List.length_range]
  have hidx : ∀ i : ℕ, i < 1000 →
      (x_vals xmin xmax)[i]? = some (xmin + i * (xmax - xmin) / 999) := by
    intro i hi
    rw [x_vals, linspace, List.getElem?_map, List.getElem?_range hi, Option.map_some']
    norm_num
  have hlast : (x_vals xmin xmax)[999]? = some xmax := by
    rw [hidx 999 (by norm_num)]
    simp only [Option.some.injEq]
    field_simp
  refine ⟨?_, ?_, ?_, hidx, ?_, hlast, ?_⟩
  · rw [sample_length]
    exact hlen
  · rw [sample_length]
    exact hlen
  · rw [sample_length]
    exact hlen
  · rw [hidx 0 (by norm_num)]
    norm_num
  · rw [List.getLast?_eq_getElem? _, hlen]
    exact hlast

/-- Witness for C7: range [1, 5] with the Spain profile under the
Exponential family; the f array has exactly 1000 samples. -/
theorem claim_C7_witness :
    ((1 : ℚ)/10 ≤ 1) ∧ ((1 : ℚ) < 5) ∧ ((5 : ℚ) ≤ 10) ∧
    country_params ("Spain 🇪🇸") = some ⟨1.2, 0.45, 3⟩ ∧
    build_function ("Exponential (Market Growth)") ⟨1.2, 0.45, 3⟩ =
      some (template_exponential 1.2 0.45 3) ∧
    (sample (template_exponential 1.2 0.45 3) (x_vals 1 5)).length = 1000 :=
  ⟨by norm_num, by norm_num, by norm_num, rfl, rfl,
   (claim_C7 1 5 (by norm_num) (by norm_num) (by norm_num) ("Spain 🇪🇸") _ rfl
     ("Exponential (Market Growth)") _ rfl).1⟩

/-- C8: looking up any name outside the fixed six-entry catalog fails
(models the KeyError raised by the dict), and each of the six catalog
names yields its fixed coefficient triple. -/
theorem claim_C8 :
    (∀ name, name ∉ countries → country_params name = none) ∧
    country_params ("Spain 🇪🇸") = some ⟨1.2, 0.45, 3⟩ ∧
    country_params ("Italy 🇮🇹") = some ⟨1.0, 0.30, 4.5⟩ ∧
    country_params ("United States 🇺🇸") = some ⟨1.5, 0.35, 6⟩ ∧
    country_params ("Mexico 🇲🇽") = some ⟨1.1, 0.50, 2.5⟩ ∧
    country_params ("Japan 🇯🇵") = some ⟨0.9, 0.25, 5⟩ ∧
    country_params ("Brazil 🇧🇷") = some ⟨1.3, 0.55, 3⟩ := by
  refine ⟨?_, rfl, rfl, rfl, rfl, rfl, rfl⟩
  intro name h
  simp only [countries, List.mem_cons, List.not_mem_nil, or_false, not_or] at h
  obtain ⟨h1, h2, h3, h4, h5, h6⟩ := h
  simp [country_params, h1, h2, h3, h4, h5, h6]

/-- Witness for C8: a name outside the catalog is rejected. -/
theorem claim_C8_witness :
    (("France") ∉ countries) ∧ country_params ("France") = none :=
  ⟨by decide, claim_C8.1 ("France") (by decide)⟩

/-- C9: in comparison mode with the same country selected twice, the guard
country_2 != country_1 skips the second pass, so exactly one curve per
panel is drawn; with two distinct countries the second is drawn with the
distinct dashed linestyle. -/
theorem claim_C9 :
    (∀ c : String, plot_passes true c (some c) = [(c, "-")] ∧
      (plot_passes true c (some c)).length = 1) ∧
    (∀ c₁ c₂ : String, c₂ ≠ c₁ →
      plot_passes true c₁ (some c₂) = [(c₁, "-"), (c₂, "--")] ∧
      ("--" : String) ≠ "-") := by
  constructor
  · intro c
    constructor <;> simp [plot_passes]
  · intro c₁ c₂ h
    exact ⟨by simp [plot_passes, h], by decide⟩

/-- Witness for C9: comparing Spain against Italy draws two passes, the
second dashed. -/
theorem claim_C9_witness :
    (("Italy 🇮🇹" : String) ≠ "Spain 🇪🇸") ∧
    plot_passes true ("Spain 🇪🇸") (some ("Italy 🇮🇹")) =
      [("Spain 🇪🇸", "-"), ("Italy 🇮🇹", "--")] ∧ ("--" : String) ≠ "-" :=
  ⟨by decide, (claim_C9.2 ("Spain 🇪🇸") ("Italy 🇮🇹") (by decide)).1,
   (claim_C9.2 ("Spain 🇪🇸") ("Italy 🇮🇹") (by decide)).2⟩
